import Mathlib

/-!
Shallow embedding of the stock-sim-server core in Lean 4.

JavaScript numbers are modelled as exact rationals; the transcendental
functions used by the price model (Math.exp and the Box-Muller combination
sqrt(-2 ln u1) * cos(2 pi u2)) are passed in as abstract function
parameters `mexp` and `gauss`, so every theorem quantifying over them holds
for the real functions in particular.
-/

namespace StockSim

/-! ## SeededRandomGenerator (src/lib/seededRandomGenerator.ts) -/

/-- Truncation toward zero, as the JavaScript `%` operator uses. -/
def jsTrunc (x : ℚ) : ℤ :=
  if 0 ≤ x then ⌊x⌋ else ⌈x⌉

/-- JavaScript remainder `a % n` (sign follows the dividend). -/
def jsMod (a n : ℚ) : ℚ :=
  a - n * (jsTrunc (a / n) : ℚ)

/-- Source `next()`: seed := (seed * 9301 + 49297) % 233280, value seed / 233280.
Returns (value, new seed). -/
def prngNext (seed : ℚ) : ℚ × ℚ :=
  let s := jsMod (seed * 9301 + 49297) 233280
  (s / 233280, s)

/-- Source `nextIdentity()`: next() * 2 - 1. Returns (value, new seed). -/
def prngNextIdentity (seed : ℚ) : ℚ × ℚ :=
  let r := prngNext seed
  (r.1 * 2 - 1, r.2)

/-- Source `nextNormal()` (Box-Muller): draws u1, u2 with next() and applies
sqrt(-2 ln u1) * cos(2 pi u2), abstracted here as the parameter `gauss`. -/
def nextNormal (gauss : ℚ → ℚ → ℚ) (seed : ℚ) : ℚ × ℚ :=
  let r1 := prngNext seed
  let r2 := prngNext r1.2
  (gauss r1.1 r2.1, r2.2)

/-- Stream of successive `next()` values from a starting seed. -/
def prngStream (seed : ℚ) : ℕ → ℚ
  | 0 => (prngNext seed).1
  | n + 1 => prngStream (prngNext seed).2 n

/-- Stream of successive `nextIdentity()` values from a starting seed. -/
def identStream (seed : ℚ) : ℕ → ℚ
  | 0 => (prngNextIdentity seed).1
  | n + 1 => identStream (prngNextIdentity seed).2 n

/-- Stream of successive `nextNormal()` values from a starting seed. -/
def normalStream (gauss : ℚ → ℚ → ℚ) (seed : ℚ) : ℕ → ℚ
  | 0 => (nextNormal gauss seed).1
  | n + 1 => normalStream gauss (nextNormal gauss seed).2 n

/-! ## StockPriceGenerator (src/lib/priceGenerator.ts, first version: the one
with intrinsicValue, guide GBM, mean reversion and roundPrice) -/

/-- Source `roundPrice`: Math.ceil(price * 100) / 100. -/
def roundPrice (price : ℚ) : ℚ :=
  (⌈price * 100⌉ : ℚ) / 100

/-- Constructor configuration of StockPriceGenerator. -/
structure StockPriceConfig where
  initialPrice : ℚ
  drift : ℚ
  volatility : ℚ
  seed : ℚ
  meanReversionStrength : Option ℚ
deriving DecidableEq

/-- Mutable state of a StockPriceGenerator. The shock state holds
(intensity, ticksRemaining). -/
structure GenState where
  intrinsicValue : ℚ
  guidePrice : ℚ
  drift : ℚ
  volatility : ℚ
  history : List ℚ
  seed : ℚ
  tickCount : ℕ
  shockState : Option (ℚ × ℚ)
  meanReversionStrength : ℚ
deriving DecidableEq

/-- Source constructor: guidePrice := initialPrice;
intrinsicValue := initialPrice * nextNormal() * 0.5 + initialPrice (no clamp);
meanReversionStrength defaults to 0.05. -/
def mkGenerator (gauss : ℚ → ℚ → ℚ) (cfg : StockPriceConfig) : GenState :=
  let r := nextNormal gauss cfg.seed
  { intrinsicValue := cfg.initialPrice * r.1 * (1/2) + cfg.initialPrice
    guidePrice := cfg.initialPrice
    drift := cfg.drift
    volatility := cfg.volatility
    history := []
    seed := r.2
    tickCount := 0
    shockState := none
    meanReversionStrength := cfg.meanReversionStrength.getD (1/20) }

/-- Source `tick()`. dt = 1 so Math.sqrt(dt) = 1. The guide price is
multiplied by exp(priceChange) (abstracted as `mexp`), clamped to 0.01 from
below, appended to the history, and both prices are returned rounded with
`roundPrice`. The intrinsic value is not modified and not clamped. -/
def genTick (gauss : ℚ → ℚ → ℚ) (mexp : ℚ → ℚ) (g : GenState) :
    GenState × (ℚ × ℚ) :=
  let drift1 :=
    match g.shockState with
    | some s => if 0 < s.2 then g.drift + s.1 else g.drift
    | none => g.drift
  let shock1 : Option (ℚ × ℚ) :=
    match g.shockState with
    | some s =>
      if 0 < s.2 then (if s.2 - 1 ≤ 0 then none else some (s.1, s.2 - 1))
      else some s
    | none => none
  let priceDifference := g.guidePrice - g.intrinsicValue
  let reversionForce := -(priceDifference / g.intrinsicValue) * g.meanReversionStrength
  let totalDrift := drift1 + reversionForce
  let r := nextNormal gauss g.seed
  let priceChange := (totalDrift - (1/2) * g.volatility ^ 2) * 1 + g.volatility * 1 * r.1
  let gp := max (g.guidePrice * mexp priceChange) (1/100)
  ({ g with
      tickCount := g.tickCount + 1
      shockState := shock1
      guidePrice := gp
      history := g.history ++ [gp]
      seed := r.2 },
    (roundPrice g.intrinsicValue, roundPrice gp))

/-- Runs `n` ticks and collects the returned (intrinsicValue, guidePrice)
pairs in order. -/
def genRun (gauss : ℚ → ℚ → ℚ) (mexp : ℚ → ℚ) (g : GenState) : ℕ → List (ℚ × ℚ)
  | 0 => []
  | n + 1 =>
    let s := genTick gauss mexp g
    s.2 :: genRun gauss mexp s.1 n

/-! ## TradingParticipant accounting (src/lib/bot.ts) -/

/-- Order side, as in nodejs-order-book. -/
inductive Side where
  | buy
  | sell
deriving DecidableEq

/-- Order kind: market or limit. -/
inductive OKind where
  | market
  | limit
deriving DecidableEq

/-- Balance fields of a TradingParticipant. -/
structure Participant where
  availableCash : ℚ
  lockedCash : ℚ
  shares : ℚ
  lockedShares : ℚ
  tradingDisabled : Bool
deriving DecidableEq

/-- Source `TradingParticipant.onOrderProcessed`: cost > 0 means a buy fill
(lockedCash -= cost, shares += quantity); otherwise a sell fill
(availableCash -= cost, lockedShares -= quantity). -/
def onOrderProcessed (p : Participant) (cost quantity : ℚ) : Participant :=
  if 0 < cost then
    { p with lockedCash := p.lockedCash - cost, shares := p.shares + quantity }
  else
    { p with availableCash := p.availableCash - cost,
             lockedShares := p.lockedShares - quantity }

/-- Source `OrderBookWrapper._computeprocessedCash` sign convention for a
limit order of a given side: BUY yields (cost, quantity) both positive,
SELL yields both negated. Result is (cost, quantity). -/
def computeProcessedCash (side : Side) (price quantity : ℚ) : ℚ × ℚ :=
  let cost := price * quantity
  if side = Side.buy then (cost, quantity) else (-cost, -quantity)

/-- An order submission handed to the order-book wrapper. -/
structure OrderReq where
  side : Side
  kind : OKind
  price : ℚ
  quantity : ℚ
deriving DecidableEq

/-- Source `TradingBot.placeBuyOrder`: returns early when tradingDisabled;
otherwise when availableCash >= price * quantity it locks the cash and
submits the order. Returns the updated participant and the submission. -/
def placeBuyOrder (p : Participant) (price quantity : ℚ) (kind : OKind) :
    Participant × Option OrderReq :=
  if p.tradingDisabled then (p, none)
  else
    let cost := price * quantity
    if cost ≤ p.availableCash then
      ({ p with lockedCash := p.lockedCash + cost,
                availableCash := p.availableCash - cost },
        some ⟨Side.buy, kind, price, quantity⟩)
    else (p, none)

/-- Source `TradingBot.placeSellOrder`: returns early when tradingDisabled;
otherwise when shares >= quantity it locks the shares and submits. -/
def placeSellOrder (p : Participant) (price quantity : ℚ) (kind : OKind) :
    Participant × Option OrderReq :=
  if p.tradingDisabled then (p, none)
  else
    if quantity ≤ p.shares then
      ({ p with lockedShares := p.lockedShares + quantity,
                shares := p.shares - quantity },
        some ⟨Side.sell, kind, price, quantity⟩)
    else (p, none)

/-- A live order as stored in the matching book (id, price, size). -/
structure BookOrder where
  oid : ℕ
  price : ℚ
  size : ℚ
deriving DecidableEq

/-- The matching book, reduced to its live orders. -/
abbrev Book := List BookOrder

/-- Source `orderBook.cancel(id)`: removes and returns the live order with
that id; returns none (and leaves the book unchanged) when absent. -/
def bookCancel (bk : Book) (oid : ℕ) : Option BookOrder × Book :=
  match bk.find? (fun o => o.oid == oid) with
  | none => (none, bk)
  | some o => (some o, bk.filter (fun q => q.oid != oid))

/-- An entry of the per-client order index (orderByIDs). -/
structure COrder where
  oid : ℕ
  side : Side
  price : ℚ
  quantity : ℚ
deriving DecidableEq

/-- Source `cancelAllOrders` per-order effect: for EVERY successfully
cancelled order, regardless of its side, the code restores the cash
(lockedCash -= price * size, availableCash += price * size) AND the shares
(lockedShares -= size, shares += size). -/
def cancelBothEffect (p : Participant) (price size : ℚ) : Participant :=
  { p with
      lockedCash := p.lockedCash - price * size
      availableCash := p.availableCash + price * size
      lockedShares := p.lockedShares - size
      shares := p.shares + size }

/-- Source `cancelSide` closure inside `cancelAllOrders`: walks the per-client
entries, cancels each in the matching book (both branches of the olderThan
test call cancel), and applies `cancelBothEffect` when the book returned the
order. -/
def cancelSideRun (p : Participant) (bk : Book) (orders : List COrder) :
    Participant × Book :=
  orders.foldl
    (fun s o =>
      match bookCancel s.2 o.oid with
      | (some c, bk2) => (cancelBothEffect s.1 c.price c.size, bk2)
      | (none, bk2) => (s.1, bk2))
    (p, bk)

/-- Source `TradingBot.cancelAllOrders` with the per-client maps flattened to
lists: with a side argument it cancels that side only and returns; without
one it cancels buys, sells, and then iterates the pair once more (the second
pass finds nothing in the book and is a no-op on balances). -/
def cancelAllOrders (p : Participant) (bk : Book)
    (buys sells : List COrder) (side : Option Side) : Participant × Book :=
  match side with
  | some Side.buy => cancelSideRun p bk buys
  | some Side.sell => cancelSideRun p bk sells
  | none =>
    let s1 := cancelSideRun p bk buys
    let s2 := cancelSideRun s1.1 s1.2 sells
    let s3 := cancelSideRun s2.1 s2.2 buys
    cancelSideRun s3.1 s3.2 sells

/-- Source `TradingBot.cancelOrder`: skipped when tradingDisabled; otherwise
cancels in the book and, only when the book returned the order, restores the
side-appropriate resource (cash for BUY, shares for SELL) using the price and
size reported by the book. -/
def cancelOrder (p : Participant) (o : COrder) (bk : Book) :
    Participant × Book :=
  if p.tradingDisabled then (p, bk)
  else
    match bookCancel bk o.oid with
    | (none, bk2) => (p, bk2)
    | (some c, bk2) =>
      if o.side = Side.buy then
        ({ p with lockedCash := p.lockedCash - c.price * c.size,
                  availableCash := p.availableCash + c.price * c.size }, bk2)
      else
        ({ p with lockedShares := p.lockedShares - c.size,
                  shares := p.shares + c.size }, bk2)

/-! ## Client.handleStockAction (src/lib/client.ts, current version) -/

/-- Modelled from the spec: `decimal` comes from src/lib/math.ts, which is not
in the tree; per its call sites it rounds a number to `n` decimal places. -/
def decimal (x : ℚ) (n : ℕ) : ℚ :=
  (round (x * (10 : ℚ) ^ n) : ℚ) / (10 : ℚ) ^ n

/-- A STOCK_ACTION message payload. -/
structure StockMsg where
  action : Side
  orderType : OKind
  quantity : ℚ
  price : ℚ
deriving DecidableEq

/-- Source `Client.handleStockAction`. It never consults tradingDisabled.
`marketPrice` is the current book market price; `marketTotals` is the
(totalCost, totalQ) pair the wrapper reports to onTotalCostComputed for a
market order. Returns the updated participant and the submitted orders.
The trailing market-price broadcast is transport and is omitted. -/
def handleStockAction (p : Participant) (msg : StockMsg) (marketPrice : ℚ)
    (marketTotals : ℚ × ℚ) : Participant × List OrderReq :=
  match msg.action with
  | Side.buy =>
    let q := if 0 < msg.quantity then msg.quantity else 0
    match msg.orderType with
    | OKind.market =>
      let cost := decimal (marketPrice * q) 3
      if cost ≤ p.availableCash then
        ({ p with lockedCash := p.lockedCash + marketTotals.1,
                  availableCash := p.availableCash - marketTotals.1 },
          [⟨Side.buy, OKind.market, marketPrice, q⟩])
      else (p, [])
    | OKind.limit =>
      let cost := decimal (msg.price * q) 3
      if cost ≤ p.availableCash then
        let pr := if 0 < msg.price then msg.price else 0
        ({ p with lockedCash := p.lockedCash + cost,
                  availableCash := p.availableCash - cost },
          [⟨Side.buy, OKind.limit, pr, q⟩])
      else (p, [])
  | Side.sell =>
    let q := if 0 < msg.quantity then msg.quantity else 0
    if q ≤ p.shares then
      match msg.orderType with
      | OKind.market =>
        ({ p with lockedShares := p.lockedShares + marketTotals.2,
                  shares := p.shares - marketTotals.2 },
          [⟨Side.sell, OKind.market, marketPrice, q⟩])
      | OKind.limit =>
        let pr := if 0 < msg.price then msg.price else 0
        ({ p with lockedShares := p.lockedShares + q,
                  shares := p.shares - q },
          [⟨Side.sell, OKind.limit, pr, q⟩])
    else (p, [])

/-! ## Simulator.tick bot loop (src/lib/simulator.ts) -/

/-- A bot polled by the tick loop: given the market price it sees, it either
throws (error) or returns its makeDecision boolean together with the market
price after its own order activity. -/
abbrev BotFn := ℚ → Except Unit (Bool × ℚ)

/-- Source bot iteration inside `Simulator.tick` (no try/catch in the
source): polls each bot in order; when makeDecision returns true and the
market price differs from the last emitted price, onPrice fires and the last
price is updated. Returns (number of bots polled, onPrice emissions in
order, final market price or the propagated error). -/
def tickLoop : List BotFn → ℚ → ℚ → ℕ × List ℚ × Except Unit ℚ
  | [], mp, _ => (0, [], Except.ok mp)
  | b :: rest, mp, lastP =>
    match b mp with
    | Except.error e => (1, [], Except.error e)
    | Except.ok d =>
      if d.1 = true ∧ d.2 ≠ lastP then
        let r := tickLoop rest d.2 d.2
        (r.1 + 1, d.2 :: r.2.1, r.2.2)
      else
        let r := tickLoop rest d.2 lastP
        (r.1 + 1, r.2.1, r.2.2)

/-! ## Room.setSettings (src/lib/room.ts) -/

/-- Source marketVolatility cleaning in `Room.setSettings`: falsy or NaN
values become 0.05; values below 0.001 become 0.001; values above 100 become
1; the result is divided by 100. Falsy is modelled as 0 (NaN is not a
rational). -/
def cleanMarketVolatility (v : ℚ) : ℚ :=
  let v1 := if v = 0 then 1/20 else v
  let v2 := if v1 < 1/1000 then 1/1000 else v1
  let v3 := if 100 < v2 then 1 else v2
  v3 / 100

/-- Source bots clamping in `Room.setSettings`: below 0 becomes 0, above 50
becomes 50. -/
def clampBots (b : ℚ) : ℚ :=
  let b1 := if b < 0 then 0 else b
  if 50 < b1 then 50 else b1

/-! ## OrderBookWrapper aggregates (src/lib/orderBookWrapper.ts) -/

/-- Aggregates kept by the wrapper; all three start at 0. -/
structure BookAgg where
  totalValueProcessed : ℚ
  highestPrice : ℚ
  lowestPrice : ℚ
deriving DecidableEq

/-- Initial aggregate values of a fresh OrderBookWrapper. -/
def aggInit : BookAgg := ⟨0, 0, 0⟩

/-- Source aggregate update in `processDoneOrders` for a processed fill at
the given price and size: totalValueProcessed += size * price;
highestPrice := price when price > highestPrice;
lowestPrice := price when price < lowestPrice. -/
def aggStep (a : BookAgg) (price size : ℚ) : BookAgg :=
  { totalValueProcessed := a.totalValueProcessed + size * price
    highestPrice := if a.highestPrice < price then price else a.highestPrice
    lowestPrice := if price < a.lowestPrice then price else a.lowestPrice }

/-- Aggregates after processing a list of (price, size) fills in order. -/
def processAgg (fills : List (ℚ × ℚ)) : BookAgg :=
  fills.foldl (fun a f => aggStep a f.1 f.2) aggInit

/-! ## PowerFactory (src/lib/powers/power.ts, src/lib/powers/power_constants.ts) -/

/-- Per-power bookkeeping fields of the Power class. -/
structure PowerSt where
  pid : String
  durationTicks : ℕ
  ticksElapsed : ℕ
  exhausted : Bool
deriving DecidableEq

/-- PowerFactory state restricted to one consuming client and one other
client: the activePowers map, the consuming client inventory, the
tradingDisabled flag the-hacker-ddos sets on the other client, and a count
of how many times the ddos onEnd callback has run. -/
structure PowerFactorySt where
  activePowers : List PowerSt
  inventory : List PowerSt
  othersTradingDisabled : Bool
  ddosEndRuns : ℕ
deriving DecidableEq

/-- Catalogue id of the DDoS power. -/
def hackerDdosId : String := "the-hacker-ddos"

/-- Source onConsume effect of the-hacker-ddos (power_constants.ts): sets
tradingDisabled := true on every other client. Other catalogue powers leave
these fields alone. -/
def onConsumeEffect (st : PowerFactorySt) (p : PowerSt) : PowerFactorySt :=
  if p.pid = hackerDdosId then { st with othersTradingDisabled := true }
  else st

/-- Source `PowerFactory.handleConsumption`: looks the power up in the
client inventory, runs consumePower (the onConsume callback) and removes it
from the inventory. The activePowers map is NOT touched: no code path in the
repository ever inserts into activePowers. -/
def handleConsumption (st : PowerFactorySt) (pid : String) : PowerFactorySt :=
  match st.inventory.find? (fun p => p.pid == pid) with
  | none => st
  | some p =>
    let st1 := onConsumeEffect st p
    { st1 with inventory := st1.inventory.filter (fun q => q.pid != pid) }

/-- Source `Power.onTick`: no-op when exhausted; otherwise increments
ticksElapsed and, once ticksElapsed >= durationTicks, marks the power
exhausted, removes it from activePowers and runs onEnd. Returns the stepped
power and whether onEnd ran. -/
def powerOnTick (p : PowerSt) : PowerSt × Bool :=
  if p.exhausted then (p, false)
  else
    let t := p.ticksElapsed + 1
    if p.durationTicks ≤ t then ({ p with ticksElapsed := t, exhausted := true }, true)
    else ({ p with ticksElapsed := t }, false)

/-- Source `PowerFactory.tick` clock handler (briefcase scheduling elided):
runs `Power.onTick` on every power in activePowers, drops the ones that
ended, and applies the the-hacker-ddos onEnd effect (clearing
tradingDisabled on the other clients) for each ended ddos power. -/
def factoryTick (st : PowerFactorySt) : PowerFactorySt :=
  let stepped := st.activePowers.map powerOnTick
  let remaining := (stepped.filter (fun s => !s.2)).map (fun s => s.1)
  let ended := (stepped.filter (fun s => s.2)).map (fun s => s.1)
  ended.foldl
    (fun s p =>
      if p.pid = hackerDdosId then
        { s with othersTradingDisabled := false, ddosEndRuns := s.ddosEndRuns + 1 }
      else s)
    { st with activePowers := remaining }

/-! ## Concrete states used by the claim theorems -/

/-- The the-hacker-ddos power as built from its catalogue entry:
durationTicks 15, freshly constructed (ticksElapsed 0, not exhausted). -/
def hackerDdosPower : PowerSt := ⟨hackerDdosId, 15, 0, false⟩

/-- Factory state right after a client selected the ddos power into its
inventory: no active powers, the ddos power in the inventory, other clients
still trading. -/
def c1Start : PowerFactorySt := ⟨[], [hackerDdosPower], false, 0⟩

/-- A participant whose trading is disabled, holding 10 shares. -/
def disabledSeller : Participant := ⟨0, 0, 10, 0, true⟩

/-- A generator state with a positive intrinsic value of 2. -/
def posGen : GenState := ⟨2, 1, 0, 1/20, [], 0, 0, none, 1/20⟩

/-- A concrete price-generator configuration. -/
def cfgA : StockPriceConfig := ⟨10, 1/2000, 1/20, 42, some (1/20)⟩

/-- The configuration used by the C9 counterexample: initialPrice 1 with the
drift, volatility and mean reversion the Simulator passes. -/
def cfgNegDraw : StockPriceConfig := ⟨1, 1/2000, 1/20, 42, some (1/20)⟩

/-! ## Helper lemmas -/

/-- Rounding up to two decimals keeps a positive value at or above one cent. -/
theorem roundPrice_pos_ge (x : ℚ) (hx : 0 < x) : (1/100 : ℚ) ≤ roundPrice x := by
  have h : (0 : ℤ) < ⌈x * 100⌉ := Int.ceil_pos.mpr (by positivity)
  have h1 : (1 : ℚ) ≤ (⌈x * 100⌉ : ℚ) := by exact_mod_cast h
  unfold roundPrice
  linarith

/-! ## Claim theorems -/

/-- C1: a power consumed from the inventory with POWER_CONSUME never enters
activePowers, because handleConsumption (and every other code path) never
inserts into it; consequently its onTick never runs on factory clock ticks
and its onEnd never fires, so after the-hacker-ddos is consumed the other
clients stay tradingDisabled forever and the onEnd run count stays 0. -/
theorem consumedPowerNeverActive :
    (handleConsumption c1Start hackerDdosId).othersTradingDisabled = true ∧
    (handleConsumption c1Start hackerDdosId).activePowers = [] ∧
    ∀ n : ℕ,
      (factoryTick^[n] (handleConsumption c1Start hackerDdosId)).othersTradingDisabled
        = true ∧
      (factoryTick^[n] (handleConsumption c1Start hackerDdosId)).ddosEndRuns = 0 := by
  have hfix : factoryTick (handleConsumption c1Start hackerDdosId) =
      handleConsumption c1Start hackerDdosId := by decide
  refine ⟨by decide, by decide, fun n => ?_⟩
  rw [Function.iterate_fixed hfix]
  exact ⟨by decide, by decide⟩

/-- C2: the bot paths placeBuyOrder and placeSellOrder are no-ops when
tradingDisabled, but Client.handleStockAction never consults tradingDisabled:
a disabled client holding 10 shares that sends STOCK_ACTION SELL LIMIT
quantity 5 price 2 has its shares and lockedShares changed and an order
submitted to the book. -/
theorem disabledClientStillTrades :
    placeBuyOrder disabledSeller 2 5 OKind.limit = (disabledSeller, none) ∧
    placeSellOrder disabledSeller 2 5 OKind.limit = (disabledSeller, none) ∧
    handleStockAction disabledSeller ⟨Side.sell, OKind.limit, 5, 2⟩ 0 (0, 0) =
      (⟨0, 0, 5, 5, true⟩, [⟨Side.sell, OKind.limit, 2, 5⟩]) ∧
    (⟨0, 0, 5, 5, true⟩ : Participant) ≠ disabledSeller := by
  refine ⟨rfl, rfl, ?_, ?_⟩
  · simp only [handleStockAction, disabledSeller]
    norm_num
  · simp only [disabledSeller, ne_eq, Participant.mk.injEq]
    norm_num

/-- C3: the wrapper reports a sell fill of 5 shares at price 2 as
cost = -10, quantity = -5; onOrderProcessed then computes
lockedShares := lockedShares - quantity = 5 - (-5) = 10, so lockedShares
INCREASES by the filled quantity instead of decreasing to 0 as the claim
states (availableCash is credited correctly). -/
theorem sellFillGrowsLockedShares :
    computeProcessedCash Side.sell 2 5 = (-10, -5) ∧
    onOrderProcessed ⟨0, 0, 0, 5, false⟩ (-10) (-5) = ⟨10, 0, 0, 10, false⟩ ∧
    ((10 : ℚ) ≠ 5 - 5) := by
  refine ⟨?_, ?_, by norm_num⟩
  · have hs : ¬ Side.sell = Side.buy := by decide
    simp only [computeProcessedCash, if_neg hs, Prod.mk.injEq]
    norm_num
  · simp only [onOrderProcessed, Participant.mk.injEq]
    norm_num

/-- C4: a bot with cash 10 places a BUY limit (price 2, size 3), locking 6;
cancelOrder restores the pre-placement balances exactly, but cancelAllOrders
(the path autoCancelOldOrders uses) also credits 3 shares and drives
lockedShares to -3, so the balances do NOT return to their pre-placement
values and the nonnegativity invariant breaks. -/
theorem cancelAllCorruptsBalances :
    placeBuyOrder ⟨10, 0, 0, 0, false⟩ 2 3 OKind.limit =
      (⟨4, 6, 0, 0, false⟩, some ⟨Side.buy, OKind.limit, 2, 3⟩) ∧
    cancelOrder ⟨4, 6, 0, 0, false⟩ ⟨1, Side.buy, 2, 3⟩ [⟨1, 2, 3⟩] =
      (⟨10, 0, 0, 0, false⟩, []) ∧
    cancelAllOrders ⟨4, 6, 0, 0, false⟩ [⟨1, 2, 3⟩] [⟨1, Side.buy, 2, 3⟩] [] none =
      (⟨10, 0, 3, -3, false⟩, []) ∧
    (⟨10, 0, 3, -3, false⟩ : Participant) ≠ ⟨10, 0, 0, 0, false⟩ := by
  refine ⟨?_, ?_, ?_, ?_⟩
  · simp only [placeBuyOrder, Prod.mk.injEq, Participant.mk.injEq]
    norm_num
  · simp only [cancelOrder, bookCancel, List.find?, Prod.mk.injEq,
      Participant.mk.injEq, List.filter]
    norm_num
  · simp only [cancelAllOrders, cancelSideRun, cancelBothEffect, bookCancel,
      List.find?, List.filter, List.foldl, Prod.mk.injEq, Participant.mk.injEq]
    norm_num
  · simp only [ne_eq, Participant.mk.injEq]
    norm_num

/-- C5 counterexample: with two bots where the first one throws, the tick
loop polls only 1 bot (not 2) and ends with the propagated error, refuting
the claim that a throwing bot does not prevent the remaining bots from being
polled. -/
theorem throwingBotSkipsRestCex :
    tickLoop [fun _ => Except.error (), fun p => Except.ok (true, p + 1)] 10 10 =
      (1, [], Except.error ()) ∧ (1 : ℕ) ≠ 2 :=
  ⟨rfl, by decide⟩

/-- C5 amended: the source has no try/catch around makeDecision, so a bot
that throws aborts the iteration: exactly one bot was polled, no onPrice
fires for the rest of the tick, and the loop ends with the error. -/
theorem throwingBotAbortsLoop (b : BotFn) (rest : List BotFn) (mp lastP : ℚ)
    (h : b mp = Except.error ()) :
    tickLoop (b :: rest) mp lastP = (1, [], Except.error ()) := by
  simp only [tickLoop]
  rw [h]

/-- C5 witness: the amended theorem applied to a concrete throwing bot. -/
theorem throwingBotAbortsLoopWitness :
    tickLoop [fun _ => Except.error (), fun p => Except.ok (true, p + 1)] 5 5 =
      (1, [], Except.error ()) :=
  throwingBotAbortsLoop (fun _ => Except.error ())
    [fun p => Except.ok (true, p + 1)] 5 5 rfl

/-- C6 counterexample: two bots that each move the market price up by 1 and
return true produce TWO onPrice emissions in a single tick, refuting the
at-most-once claim. -/
theorem doubleEmissionCex :
    tickLoop [fun p => Except.ok (true, p + 1), fun p => Except.ok (true, p + 1)] 1 1 =
      (2, [2, 3], Except.ok 3) ∧ ¬ (2 : ℕ) ≤ 1 := by
  refine ⟨?_, by norm_num⟩
  simp only [tickLoop]
  norm_num

/-- C6 amended: within a tick, onPrice fires once for each bot whose
makeDecision returned true and left the market price different from the last
emitted price (initially the pre-loop price); consecutive emitted prices are
always distinct, and there are at most as many emissions as bots. -/
theorem onPriceEmissions (bots : List BotFn) (mp lastP : ℚ) :
    List.Chain' (fun a b => a ≠ b) (lastP :: (tickLoop bots mp lastP).2.1) ∧
    (tickLoop bots mp lastP).2.1.length ≤ bots.length := by
  induction bots generalizing mp lastP with
  | nil => simp [tickLoop]
  | cons b rest ih =>
    cases hb : b mp with
    | error e => simp [tickLoop, hb]
    | ok d =>
      by_cases hc : d.1 = true ∧ d.2 ≠ lastP
      · simp only [tickLoop, hb, if_pos hc, List.length_cons]
        obtain ⟨h1, h2⟩ := ih d.2 d.2
        exact ⟨List.chain'_cons.mpr ⟨Ne.symm hc.2, h1⟩, Nat.succ_le_succ h2⟩
      · simp only [tickLoop, hb, if_neg hc, List.length_cons]
        obtain ⟨h1, h2⟩ := ih d.2 lastP
        exact ⟨h1, le_trans h2 (Nat.le_succ _)⟩

/-- C7 counterexample: setSettings with marketVolatility = 0 stores
0.05 / 100 = 0.0005 (the falsy guard replaces 0 with the default 0.05), not
the 0.001 / 100 = 0.00001 the claim states. -/
theorem volatilityZeroCex :
    cleanMarketVolatility 0 = 1/2000 ∧ (1/2000 : ℚ) ≠ 1/100000 := by
  constructor
  · simp only [cleanMarketVolatility]
    norm_num
  · norm_num

/-- C7 amended: marketVolatility is cleaned as follows before division by
100: a falsy 0 becomes the default 0.05; values below 0.001 become 0.001;
values above 100 (not above 1) become 1; values in [0.001, 100] pass
through. So 0 stores 0.0005, 10000 stores 0.01, and 50 stores 0.5. The bots
clamps hold as claimed: -1 stores 0 and 1000000 stores 50. -/
theorem settingsClampCharacterization :
    cleanMarketVolatility 0 = 1/2000 ∧
    cleanMarketVolatility 10000 = 1/100 ∧
    clampBots (-1) = 0 ∧
    clampBots 1000000 = 50 ∧
    (∀ v : ℚ, v ≠ 0 → 1/1000 ≤ v → v ≤ 100 → cleanMarketVolatility v = v / 100) ∧
    (∀ v : ℚ, v ≠ 0 → v < 1/1000 → cleanMarketVolatility v = 1/100000) ∧
    (∀ v : ℚ, 100 < v → cleanMarketVolatility v = 1/100) := by
  refine ⟨by simp only [cleanMarketVolatility]; norm_num,
    by simp only [cleanMarketVolatility]; norm_num,
    by simp only [clampBots]; norm_num,
    by simp only [clampBots]; norm_num, ?_, ?_, ?_⟩
  · intro v h0 hlo hhi
    simp only [cleanMarketVolatility]
    rw [if_neg h0, if_neg (not_lt.mpr hlo), if_neg (not_lt.mpr hhi)]
  · intro v h0 hlt
    simp only [cleanMarketVolatility]
    rw [if_neg h0, if_pos hlt]
    norm_num
  · intro v hgt
    have h0 : v ≠ 0 := by linarith
    have hlo : ¬ v < 1/1000 := by linarith
    simp only [cleanMarketVolatility]
    rw [if_neg h0, if_neg hlo, if_pos hgt]

/-- C7 witness: the passthrough regime of the amended theorem at v = 50 and
the two clamp regimes at 1/2000 and 200. -/
theorem settingsClampWitness :
    cleanMarketVolatility 50 = 50 / 100 ∧
    cleanMarketVolatility (1/2000) = 1/100000 ∧
    cleanMarketVolatility 200 = 1/100 :=
  ⟨settingsClampCharacterization.2.2.2.2.1 50 (by norm_num) (by norm_num) (by norm_num),
    settingsClampCharacterization.2.2.2.2.2.1 (1/2000) (by norm_num) (by norm_num),
    settingsClampCharacterization.2.2.2.2.2.2 200 (by norm_num)⟩

/-- C8: after two fills at the strictly positive prices 5 and 3,
highestPrice is the maximum 5 and totalValueProcessed is correct, but
lowestPrice is still its initial value 0 (a positive price is never below
it), not the minimum execution price 3. -/
theorem lowestPriceStuckAtZero :
    processAgg [(5, 1), (3, 2)] = ⟨11, 5, 0⟩ ∧
    ((0 : ℚ) < 3 ∧ (0 : ℚ) < 5) ∧
    (processAgg [(5, 1), (3, 2)]).lowestPrice ≠ 3 := by
  have h : processAgg [(5, 1), (3, 2)] = ⟨11, 5, 0⟩ := by
    simp only [processAgg, aggInit, aggStep, List.foldl, BookAgg.mk.injEq]
    norm_num
  refine ⟨h, ⟨by norm_num, by norm_num⟩, ?_⟩
  rw [h]
  norm_num

/-- C9 counterexample: the constructor does not clamp the intrinsic value.
With a Box-Muller draw of -4 (reachable, since sqrt(-2 ln u1) cos(2 pi u2)
is unbounded below) and initialPrice 1, the constructed intrinsic value is
1 * (-4) * 0.5 + 1 = -1 and the first tick returns a rounded intrinsic
price of -1, below the claimed 0.01 bound. -/
theorem negativeIntrinsicCex :
    (genTick (fun _ _ => -4) (fun _ => 1)
      (mkGenerator (fun _ _ => -4) cfgNegDraw)).2.1 < 1/100 := by
  show roundPrice (mkGenerator (fun _ _ => -4) cfgNegDraw).intrinsicValue < 1/100
  simp only [mkGenerator, nextNormal, cfgNegDraw, roundPrice]
  have h : ((1 : ℚ) * -4 * (1/2) + 1) * 100 = ((-100 : ℤ) : ℚ) := by norm_num
  rw [h, Int.ceil_intCast]
  norm_num

/-- C9 amended: for every state, every normal draw and every exponential
function, tick returns the ceiling-to-two-decimals of the underlying values;
the guide price is clamped before rounding and is always at least 0.01; the
intrinsic value is returned unclamped, and its rounding is at least 0.01
whenever the underlying intrinsic value is positive (which the constructor
does not guarantee). -/
theorem tickPricesRounded (gauss : ℚ → ℚ → ℚ) (mexp : ℚ → ℚ) (g : GenState) :
    (1/100 : ℚ) ≤ (genTick gauss mexp g).2.2 ∧
    (genTick gauss mexp g).2.1 = roundPrice g.intrinsicValue ∧
    (genTick gauss mexp g).2.2 = roundPrice (genTick gauss mexp g).1.guidePrice ∧
    (0 < g.intrinsicValue → (1/100 : ℚ) ≤ (genTick gauss mexp g).2.1) := by
  refine ⟨?_, rfl, rfl, fun h => roundPrice_pos_ge _ h⟩
  have hg : (1/100 : ℚ) ≤ (genTick gauss mexp g).1.guidePrice := le_max_right _ _
  exact roundPrice_pos_ge _ (lt_of_lt_of_le (by norm_num) hg)

/-- C9 witness: the amended theorem applied to a state with positive
intrinsic value 2 yields a rounded intrinsic price of at least 0.01. -/
theorem tickPricesRoundedWitness :
    (0 : ℚ) < posGen.intrinsicValue ∧
    (1/100 : ℚ) ≤ (genTick (fun _ _ => 0) (fun _ => 1) posGen).2.1 :=
  ⟨by norm_num [posGen],
    (tickPricesRounded (fun _ _ => 0) (fun _ => 1) posGen).2.2.2 (by norm_num [posGen])⟩

/-- C10: the PRNG and the price generator are pure functions of the seed and
configuration: equal seeds give identical next, nextIdentity and nextNormal
streams, and componentwise-equal configurations give identical
(intrinsicValue, guidePrice) sequences over any number of ticks (there are
no other inputs: the tick path reads no clock and no ambient randomness). -/
theorem seededDeterminism (gauss : ℚ → ℚ → ℚ) (mexp : ℚ → ℚ)
    (c1 c2 : StockPriceConfig)
    (hip : c1.initialPrice = c2.initialPrice) (hd : c1.drift = c2.drift)
    (hv : c1.volatility = c2.volatility) (hs : c1.seed = c2.seed)
    (hm : c1.meanReversionStrength = c2.meanReversionStrength) :
    (∀ n, prngStream c1.seed n = prngStream c2.seed n) ∧
    (∀ n, identStream c1.seed n = identStream c2.seed n) ∧
    (∀ n, normalStream gauss c1.seed n = normalStream gauss c2.seed n) ∧
    (∀ n, genRun gauss mexp (mkGenerator gauss c1) n =
      genRun gauss mexp (mkGenerator gauss c2) n) := by
  have hc : c1 = c2 := by
    cases c1
    cases c2
    simp_all
  subst hc
  exact ⟨fun n => rfl, fun n => rfl, fun n => rfl, fun n => rfl⟩

/-- C10 witness: determinism applied to the concrete configuration cfgA. -/
theorem seededDeterminismWitness :
    prngStream (42 : ℚ) 3 = prngStream 42 3 ∧
    genRun (fun _ _ => 0) (fun _ => 1) (mkGenerator (fun _ _ => 0) cfgA) 2 =
      genRun (fun _ _ => 0) (fun _ => 1) (mkGenerator (fun _ _ => 0) cfgA) 2 := by
  have h := seededDeterminism (fun _ _ => 0) (fun _ => 1) cfgA cfgA
    rfl rfl rfl rfl rfl
  exact ⟨h.1 3, h.2.2.2 2⟩

end StockSim
